import Mathlib

/-!
Shallow embedding of the request-credit rate limiter and retry queue of the
repository (class `InfuraRateLimiter` in `src/utils/rateLimiter.js`, bundled
into `src/models/Institution.ts`): the cost model, the admission check
`canProceed`, usage tracking `trackUsage`, the drain loop `processQueue`, the
batch sizing advisor `calculateOptimalBatchSize` / `getOptimalBatchConfig`,
and the monitoring tick of `startMonitoring`.

Machine numbers of the source are IEEE doubles holding small integers; all
arithmetic stays far below 2^53, so they are embedded as `Nat`.
-/

set_option autoImplicit false

/-- Hard per-second ceiling of the source (informational only):
`this.MAX_CREDITS_PER_SECOND = 500`. -/
def MAX_CREDITS_PER_SECOND : Nat := 500

/-- Hard daily ceiling used for admission: `this.MAX_CREDITS_PER_DAY = 3000000`. -/
def MAX_CREDITS_PER_DAY : Nat := 3000000

/-- Admission ceiling for the per-second window:
`this.SAFE_CREDITS_PER_SECOND = 400`. -/
def SAFE_CREDITS_PER_SECOND : Nat := 400

/-- The static credit cost table `this.CREDIT_COSTS` of the constructor. -/
def CREDIT_COSTS (method : String) : Option Nat :=
  if method = "eth_sendRawTransaction" then some 20
  else if method = "eth_call" then some 15
  else if method = "eth_getTransactionReceipt" then some 15
  else if method = "eth_getBalance" then some 10
  else if method = "eth_getBlockByNumber" then some 10
  else if method = "eth_gasPrice" then some 5
  else none

/-- Source `getCreditsForMethod(method)`: `this.CREDIT_COSTS[method] || 10`.
Every entry of the table is nonzero, so the JavaScript `|| 10` default fires
exactly when the method is absent from the table. -/
def getCreditsForMethod (method : String) : Nat :=
  (CREDIT_COSTS method).getD 10

/-- Result record of the admission check: `{ allowed, reason? }`. -/
structure ProceedResult where
  allowed : Bool
  reason : Option String
deriving DecidableEq

/-- Source `canProceed(method)`: reads the two counters, mutates nothing.
Daily check first (against `MAX_CREDITS_PER_DAY`), then the per-second check
(against `SAFE_CREDITS_PER_SECOND`). -/
def canProceed (secondlyCredits dailyCredits : Nat) (method : String) :
    ProceedResult :=
  if dailyCredits + getCreditsForMethod method > MAX_CREDITS_PER_DAY then
    ⟨false, some "Daily credit limit exceeded"⟩
  else if secondlyCredits + getCreditsForMethod method >
      SAFE_CREDITS_PER_SECOND then
    ⟨false, some "Per-second rate limit"⟩
  else
    ⟨true, none⟩

/-- Modelled from the spec (§4.1 `canAdmit`), for comparison with the source
function `canProceed`: the spec words the denial reasons as
`"daily limit exceeded"` and `"per-second rate limit"`. -/
def canAdmitSpec (secondlyCredits dailyCredits : Nat) (method : String) :
    ProceedResult :=
  if dailyCredits + getCreditsForMethod method > MAX_CREDITS_PER_DAY then
    ⟨false, some "daily limit exceeded"⟩
  else if secondlyCredits + getCreditsForMethod method >
      SAFE_CREDITS_PER_SECOND then
    ⟨false, some "per-second rate limit"⟩
  else
    ⟨true, none⟩

/-- Source `calculateOptimalBatchSize(creditsPerOperation)`.
`availableCreditsPerSecond = this.SAFE_CREDITS_PER_SECOND * 0.8` evaluates to
exactly `320` in double arithmetic (the rounding error of `0.8` vanishes when
`400 * 0.8` is rounded to the nearest double), embedded as `400 * 8 / 10`;
`Math.floor(320 / c)` is `Nat` division for integer `c`; then
`Math.min(batchSize, 50)`. -/
def calculateOptimalBatchSize (creditsPerOperation : Nat) : Nat :=
  let availableCreditsPerSecond := SAFE_CREDITS_PER_SECOND * 8 / 10
  let batchSize := availableCreditsPerSecond / creditsPerOperation
  min batchSize 50

/-- Record returned by `getOptimalBatchConfig`. -/
structure BatchConfig where
  batchSize : Nat
  delayBetweenBatches : Nat
  maxConcurrentBatches : Nat
deriving DecidableEq

/-- Source exported `getOptimalBatchConfig()`: batch size for the assumed
`sendTransaction` cost 20, a 3000 ms inter-batch delay, sequential batches. -/
def getOptimalBatchConfig : BatchConfig :=
  { batchSize := calculateOptimalBatchSize 20
    delayBetweenBatches := 3000
    maxConcurrentBatches := 1 }

/-- Every cost the table or its default can produce is at most 20. -/
theorem getCreditsForMethod_le_20 (method : String) :
    getCreditsForMethod method ≤ 20 := by
  unfold getCreditsForMethod CREDIT_COSTS
  split
  · simp
  · split
    · simp
    · split
      · simp
      · split
        · simp
        · split
          · simp
          · split <;> simp

/-- Admission succeeds exactly when both budgets can absorb the cost. -/
theorem canProceed_allowed_iff (sc dc : Nat) (m : String) :
    (canProceed sc dc m).allowed = true ↔
      dc + getCreditsForMethod m ≤ MAX_CREDITS_PER_DAY ∧
        sc + getCreditsForMethod m ≤ SAFE_CREDITS_PER_SECOND := by
  unfold canProceed
  split
  · rename_i h
    simp only [Bool.false_eq_true, false_iff]
    omega
  · split
    · rename_i h1 h2
      simp only [Bool.false_eq_true, false_iff]
      omega
    · rename_i h1 h2
      simp only [true_iff]
      omega

/-- Claim C2 as written compares `canProceed` against the spec wording
`canAdmitSpec`; they disagree at a concrete over-budget input: the source
denies with reason `"Daily credit limit exceeded"`, not
`"daily limit exceeded"`. -/
theorem c2_counterexample :
    canProceed 0 MAX_CREDITS_PER_DAY "eth_call" ≠
      canAdmitSpec 0 MAX_CREDITS_PER_DAY "eth_call" ∧
    (canProceed 0 MAX_CREDITS_PER_DAY "eth_call").reason =
      some "Daily credit limit exceeded" := by
  constructor
  · decide
  · decide

/-- Claim C2 (amended reasons): for every method, `canProceed` denies with
reason `"Daily credit limit exceeded"` when the daily budget cannot absorb the
cost; otherwise denies with reason `"Per-second rate limit"` when the
per-second budget cannot; otherwise allows with no reason. The daily check is
performed first, and the check is a pure function of the two counters. -/
theorem c2_canProceed_characterisation (sc dc : Nat) (m : String) :
    (dc + getCreditsForMethod m > MAX_CREDITS_PER_DAY →
      canProceed sc dc m = ⟨false, some "Daily credit limit exceeded"⟩) ∧
    (dc + getCreditsForMethod m ≤ MAX_CREDITS_PER_DAY →
      sc + getCreditsForMethod m > SAFE_CREDITS_PER_SECOND →
      canProceed sc dc m = ⟨false, some "Per-second rate limit"⟩) ∧
    (dc + getCreditsForMethod m ≤ MAX_CREDITS_PER_DAY →
      sc + getCreditsForMethod m ≤ SAFE_CREDITS_PER_SECOND →
      canProceed sc dc m = ⟨true, none⟩) := by
  refine ⟨fun hd => ?_, fun hd hs => ?_, fun hd hs => ?_⟩
  · unfold canProceed
    split
    · rfl
    · exfalso; omega
  · unfold canProceed
    split
    · exfalso; omega
    · rfl
  · unfold canProceed
    split
    · exfalso; omega
    · split
      · exfalso; omega
      · rfl

/-- Witness for `c2_canProceed_characterisation` at a daily-limit denial. -/
theorem c2_canProceed_characterisation_witness :
    canProceed 0 MAX_CREDITS_PER_DAY "eth_call" =
      ⟨false, some "Daily credit limit exceeded"⟩ :=
  (c2_canProceed_characterisation 0 MAX_CREDITS_PER_DAY "eth_call").1
    (by decide)

/-- Claim C8: for every positive cost, the advisor returns
`min ((400 * 8 / 10) / c) 50`; advising for cost 20 yields 16; and the exported
batch configuration is `{ batchSize := 16, delayBetweenBatches := 3000,
maxConcurrentBatches := 1 }`. -/
theorem c8_batch_advisor (c : Nat) (_hc : 0 < c) :
    calculateOptimalBatchSize c =
        min (SAFE_CREDITS_PER_SECOND * 8 / 10 / c) 50 ∧
      calculateOptimalBatchSize 20 = 16 ∧
      getOptimalBatchConfig =
        { batchSize := 16, delayBetweenBatches := 3000,
          maxConcurrentBatches := 1 } := by
  refine ⟨rfl, by decide, by decide⟩

/-- Witness for `c8_batch_advisor` at cost 20. -/
theorem c8_batch_advisor_witness :
    calculateOptimalBatchSize 20 =
        min (SAFE_CREDITS_PER_SECOND * 8 / 10 / 20) 50 ∧
      calculateOptimalBatchSize 20 = 16 ∧
      getOptimalBatchConfig =
        { batchSize := 16, delayBetweenBatches := 3000,
          maxConcurrentBatches := 1 } :=
  c8_batch_advisor 20 (by decide)

/-- Claim C10: any per-operation cost above `320 = 400 * 0.8` makes the
advisor return a batch size of zero; the source divides without any
lower-bound check on its argument. -/
theorem c10_batch_size_zero (c : Nat) (hc : 320 < c) :
    calculateOptimalBatchSize c = 0 := by
  unfold calculateOptimalBatchSize
  simp only [SAFE_CREDITS_PER_SECOND]
  have h : (400 * 8 / 10) / c = 0 := Nat.div_eq_of_lt (by omega)
  omega

/-- Witness for `c10_batch_size_zero` at cost 321. -/
theorem c10_batch_size_zero_witness : calculateOptimalBatchSize 321 = 0 :=
  c10_batch_size_zero 321 (by decide)

/-!
Drain loop model. `queueRequest` pushes an entry
`{ method, executeFn, resolve, reject, retries: 0, maxRetries: 3 }` and
`processQueue` drains the queue while it is non-empty. The promise returned
to the caller is embedded as the entry id together with the settlement list;
`executeFn` is embedded as the script of the results of its successive calls.
The `processing` flag excludes a second concurrent drain loop, so one run of
the loop over the initial queue is the whole behaviour for a fixed set of
submissions.
-/

/-- Error value rejected by an operation: the JavaScript error object with
its `code` property and an opaque tag standing for the object identity. -/
structure JsError where
  code : Nat
  tag : Nat
deriving DecidableEq

/-- One scripted result of an entry's `executeFn`: each call of the
executable either resolves with a value or rejects with an error. -/
inductive ExecResult where
  | ok (value : Nat)
  | err (e : JsError)
deriving DecidableEq

/-- Queue entry as pushed by `queueRequest`. -/
structure QueueEntry where
  id : Nat
  method : String
  script : List ExecResult
  retries : Nat
  maxRetries : Nat
deriving DecidableEq

/-- Events emitted by the drain loop (`this.emit(...)`). -/
inductive Event where
  | throttled (method : String) (reason : Option String)
  | retry (method : String) (retryCount : Nat) (backoffMs : Nat)
deriving DecidableEq

/-- Settlement of a caller's promise: `request.resolve(result)` or
`request.reject(error)`. -/
inductive Settlement where
  | resolved (id : Nat) (value : Nat)
  | rejected (id : Nat) (e : JsError)
deriving DecidableEq

/-- State of the limiter as seen by the drain loop: the two counters, the
statistics, the queue, and the observable history (events, settlements, and
one `(id, attempt)` record per admitted execution). -/
structure QState where
  secondlyCredits : Nat
  dailyCredits : Nat
  dailyCreditsUsed : Nat
  totalRequests : Nat
  throttledRequests : Nat
  failedRequests : Nat
  queue : List QueueEntry
  events : List Event
  settlements : List Settlement
  attempts : List (Nat × Nat)
deriving DecidableEq

/-- Source `trackUsage(method)`: adds the cost to both counters and to
`stats.dailyCreditsUsed`, and counts the request. -/
def trackUsage (s : QState) (method : String) : QState :=
  { s with
    secondlyCredits := s.secondlyCredits + getCreditsForMethod method
    dailyCredits := s.dailyCredits + getCreditsForMethod method
    dailyCreditsUsed := s.dailyCreditsUsed + getCreditsForMethod method
    totalRequests := s.totalRequests + 1 }

/-- Source `processQueue()` while-loop, one recursive call per iteration,
`fuel` bounding the number of iterations examined. A denied head is left in
place: the loop counts the throttle, emits `throttled` with the reason,
awaits `delay(1000)` and re-checks the same head. An admitted head is
shifted, charged by `trackUsage`, and executed; a rejection with `code` 429
and retries left increments `retries`, emits `retry` carrying the backoff
`2 ^ retries * 1000` ms that the loop awaits, and re-inserts the entry at
the front (`unshift`); any other rejection rejects the caller with the very
error and counts it in `stats.failedRequests`. An exhausted script (never
reached from the theorems below) stops the loop. -/
def processQueue (fuel : Nat) (s : QState) : QState :=
  match fuel with
  | 0 => s
  | fuel + 1 =>
    match s.queue with
    | [] => s
    | e :: rest =>
      if (canProceed s.secondlyCredits s.dailyCredits e.method).allowed then
        let s1 := trackUsage
          { s with
            queue := rest
            attempts := s.attempts ++ [(e.id, e.retries + 1)] } e.method
        match e.script with
        | [] => s1
        | .ok v :: _ =>
          processQueue fuel
            { s1 with settlements := s1.settlements ++ [.resolved e.id v] }
        | .err er :: scriptRest =>
          if er.code = 429 ∧ e.retries < e.maxRetries then
            processQueue fuel
              { s1 with
                events := s1.events ++
                  [.retry e.method (e.retries + 1) (2 ^ (e.retries + 1) * 1000)]
                queue := { e with
                  retries := e.retries + 1
                  script := scriptRest } :: rest }
          else
            processQueue fuel
              { s1 with
                failedRequests := s1.failedRequests + 1
                settlements := s1.settlements ++ [.rejected e.id er] }
      else
        processQueue fuel
          { s with
            throttledRequests := s.throttledRequests + 1
            events := s.events ++
              [.throttled e.method
                (canProceed s.secondlyCredits s.dailyCredits e.method).reason] }

/-- Drain state for a fresh limiter holding the given queue. -/
def qInit (q : List QueueEntry) : QState :=
  { secondlyCredits := 0, dailyCredits := 0, dailyCreditsUsed := 0,
    totalRequests := 0, throttledRequests := 0, failedRequests := 0,
    queue := q, events := [], settlements := [], attempts := [] }

/-- Admission holds whenever both budgets can absorb the cost. -/
theorem canProceed_allowed_of (sc dc : Nat) (m : String)
    (hd : dc + getCreditsForMethod m ≤ MAX_CREDITS_PER_DAY)
    (hs : sc + getCreditsForMethod m ≤ SAFE_CREDITS_PER_SECOND) :
    (canProceed sc dc m).allowed = true :=
  (canProceed_allowed_iff sc dc m).mpr ⟨hd, hs⟩

/-- Submissions A, B, C for claim C4: A fails once with a transient 429 and
then succeeds, B and C succeed at once. -/
def c4Queue (mA mB mC : String) (p va vb vc : Nat) : List QueueEntry :=
  [ { id := 0, method := mA, script := [.err ⟨429, p⟩, .ok va],
      retries := 0, maxRetries := 3 },
    { id := 1, method := mB, script := [.ok vb], retries := 0,
      maxRetries := 3 },
    { id := 2, method := mC, script := [.ok vc], retries := 0,
      maxRetries := 3 } ]

/-- Claim C4: with submissions A, B, C in that order where A's operation
fails once with a transient 429 and then succeeds, the executions happen in
the order A, A(retry), B, C — B and C never run before A's retry completes,
because the failed entry re-enters at the front of the queue — and all three
callers are resolved with their own results, in that order. -/
theorem c4_fifo_retry_precedence (mA mB mC : String) (p va vb vc : Nat) :
    (processQueue 5 (qInit (c4Queue mA mB mC p va vb vc))).attempts =
        [(0, 1), (0, 2), (1, 1), (2, 1)] ∧
      (processQueue 5 (qInit (c4Queue mA mB mC p va vb vc))).settlements =
        [.resolved 0 va, .resolved 1 vb, .resolved 2 vc] := by
  have hA := getCreditsForMethod_le_20 mA
  have hB := getCreditsForMethod_le_20 mB
  have hC := getCreditsForMethod_le_20 mC
  have h1 : (canProceed 0 0 mA).allowed = true :=
    canProceed_allowed_of 0 0 mA
      (by unfold MAX_CREDITS_PER_DAY; omega)
      (by unfold SAFE_CREDITS_PER_SECOND; omega)
  have h2 : (canProceed (getCreditsForMethod mA) (getCreditsForMethod mA)
      mA).allowed = true :=
    canProceed_allowed_of _ _ mA
      (by unfold MAX_CREDITS_PER_DAY; omega)
      (by unfold SAFE_CREDITS_PER_SECOND; omega)
  have h3 : (canProceed (getCreditsForMethod mA + getCreditsForMethod mA)
      (getCreditsForMethod mA + getCreditsForMethod mA) mB).allowed = true :=
    canProceed_allowed_of _ _ mB
      (by unfold MAX_CREDITS_PER_DAY; omega)
      (by unfold SAFE_CREDITS_PER_SECOND; omega)
  have h4 : (canProceed
      (getCreditsForMethod mA + getCreditsForMethod mA +
        getCreditsForMethod mB)
      (getCreditsForMethod mA + getCreditsForMethod mA +
        getCreditsForMethod mB) mC).allowed = true :=
    canProceed_allowed_of _ _ mC
      (by unfold MAX_CREDITS_PER_DAY; omega)
      (by unfold SAFE_CREDITS_PER_SECOND; omega)
  constructor <;>
    simp [processQueue, qInit, c4Queue, trackUsage, h1, h2, h3, h4]

/-- Submission for claim C5: an operation whose executable always rejects
with a transient 429 error; the four errors observed by the four attempts
carry the tags `p1 ... p4`, and `restScript` (never consulted) stands for
the unbounded remainder of the always-failing executable. -/
def c5Queue (m : String) (p1 p2 p3 p4 : Nat) (restScript : List ExecResult) :
    List QueueEntry :=
  [ { id := 0, method := m,
      script := [.err ⟨429, p1⟩, .err ⟨429, p2⟩, .err ⟨429, p3⟩,
        .err ⟨429, p4⟩] ++ restScript,
      retries := 0, maxRetries := 3 } ]

/-- Claim C5: an operation that always rejects with a transient 429 is
attempted exactly `1 + maxRetries = 4` times; the k-th retry is announced
with (and awaited for) a backoff of `2 ^ k * 1000` ms before the entry
re-enters at the front; after the fourth failed attempt the caller is
rejected with the last observed error, counted as one permanent failure. -/
theorem c5_bounded_retries (m : String) (p1 p2 p3 p4 : Nat)
    (restScript : List ExecResult) :
    (processQueue 5 (qInit (c5Queue m p1 p2 p3 p4 restScript))).attempts =
        [(0, 1), (0, 2), (0, 3), (0, 4)] ∧
      (processQueue 5 (qInit (c5Queue m p1 p2 p3 p4 restScript))).events =
        [.retry m 1 2000, .retry m 2 4000, .retry m 3 8000] ∧
      (processQueue 5 (qInit (c5Queue m p1 p2 p3 p4 restScript))).settlements
        = [.rejected 0 ⟨429, p4⟩] ∧
      (processQueue 5
          (qInit (c5Queue m p1 p2 p3 p4 restScript))).failedRequests = 1 := by
  have hm := getCreditsForMethod_le_20 m
  have h1 : (canProceed 0 0 m).allowed = true :=
    canProceed_allowed_of 0 0 m
      (by unfold MAX_CREDITS_PER_DAY; omega)
      (by unfold SAFE_CREDITS_PER_SECOND; omega)
  have h2 : (canProceed (getCreditsForMethod m) (getCreditsForMethod m)
      m).allowed = true :=
    canProceed_allowed_of _ _ m
      (by unfold MAX_CREDITS_PER_DAY; omega)
      (by unfold SAFE_CREDITS_PER_SECOND; omega)
  have h3 : (canProceed (getCreditsForMethod m + getCreditsForMethod m)
      (getCreditsForMethod m + getCreditsForMethod m) m).allowed = true :=
    canProceed_allowed_of _ _ m
      (by unfold MAX_CREDITS_PER_DAY; omega)
      (by unfold SAFE_CREDITS_PER_SECOND; omega)
  have h4 : (canProceed
      (getCreditsForMethod m + getCreditsForMethod m + getCreditsForMethod m)
      (getCreditsForMethod m + getCreditsForMethod m + getCreditsForMethod m)
      m).allowed = true :=
    canProceed_allowed_of _ _ m
      (by unfold MAX_CREDITS_PER_DAY; omega)
      (by unfold SAFE_CREDITS_PER_SECOND; omega)
  refine ⟨?_, ?_, ?_, ?_⟩ <;>
    simp [processQueue, qInit, c5Queue, trackUsage, h1, h2, h3, h4]

/-- Submission for claim C6: a single operation whose executable rejects
with an error of code `c` while the entry already carries `r` recorded
retries (fresh submissions have `r = 0`). -/
def c6Queue (m : String) (c p r : Nat) (restScript : List ExecResult) :
    List QueueEntry :=
  [ { id := 0, method := m, script := .err ⟨c, p⟩ :: restScript,
      retries := r, maxRetries := 3 } ]

/-- Claim C6: an execution rejecting with a non-429 error — or with any
error once retries are exhausted — rejects the caller at once with the
original error value itself, emits no retry event (hence no backoff wait),
performs no further attempt, and increments `failedRequests` by one. -/
theorem c6_permanent_failure (m : String) (c p r : Nat)
    (restScript : List ExecResult) (hperm : ¬(c = 429 ∧ r < 3)) :
    (processQueue 2 (qInit (c6Queue m c p r restScript))).attempts =
        [(0, r + 1)] ∧
      (processQueue 2 (qInit (c6Queue m c p r restScript))).settlements =
        [.rejected 0 ⟨c, p⟩] ∧
      (processQueue 2 (qInit (c6Queue m c p r restScript))).events = [] ∧
      (processQueue 2 (qInit (c6Queue m c p r restScript))).failedRequests
        = 1 := by
  have hm := getCreditsForMethod_le_20 m
  have h1 : (canProceed 0 0 m).allowed = true :=
    canProceed_allowed_of 0 0 m
      (by unfold MAX_CREDITS_PER_DAY; omega)
      (by unfold SAFE_CREDITS_PER_SECOND; omega)
  refine ⟨?_, ?_, ?_, ?_⟩ <;>
    simp [processQueue, qInit, c6Queue, trackUsage, h1, hperm]

/-- Witness for `c6_permanent_failure`: a generic error of code 500 on a
fresh `eth_call` submission is rejected unchanged with no retry. -/
theorem c6_permanent_failure_witness :
    (processQueue 2 (qInit (c6Queue "eth_call" 500 7 0 []))).attempts =
        [(0, 0 + 1)] ∧
      (processQueue 2 (qInit (c6Queue "eth_call" 500 7 0 []))).settlements =
        [.rejected 0 ⟨500, 7⟩] ∧
      (processQueue 2 (qInit (c6Queue "eth_call" 500 7 0 []))).events = [] ∧
      (processQueue 2 (qInit (c6Queue "eth_call" 500 7 0 []))).failedRequests
        = 1 :=
  c6_permanent_failure "eth_call" 500 7 0 [] (by decide)

/-- Claim C7: one iteration of the drain loop on a denied head leaves the
queue — the head entry in particular — every caller settlement, both credit
counters and all other statistics unchanged; the only effects are one more
`throttledRequests` and a `throttled` event carrying the denial reason,
after which the loop waits 1000 ms and re-checks the same head. No denial
reaches any caller as a failure. -/
theorem c7_denied_head_frame (s : QState) (e : QueueEntry)
    (rest : List QueueEntry) (hq : s.queue = e :: rest)
    (hdeny : (canProceed s.secondlyCredits s.dailyCredits e.method).allowed
      = false) :
    processQueue 1 s =
      { s with
        throttledRequests := s.throttledRequests + 1
        events := s.events ++
          [.throttled e.method
            (canProceed s.secondlyCredits s.dailyCredits e.method).reason] }
      := by
  simp [processQueue, hq, hdeny]

/-- Concrete denied configuration for the `c7_denied_head_frame` witness:
the daily budget is exhausted and a pending `eth_call` sits at the head. -/
def c7DeniedState : QState :=
  { secondlyCredits := 0, dailyCredits := 3000000, dailyCreditsUsed := 3000000,
    totalRequests := 5, throttledRequests := 2, failedRequests := 1,
    queue :=
      [{ id := 9, method := "eth_call", script := [.ok 1],
         retries := 0, maxRetries := 3 }],
    events := [], settlements := [], attempts := [] }

/-- Witness for `c7_denied_head_frame` at `c7DeniedState`. -/
theorem c7_denied_head_frame_witness :
    processQueue 1 c7DeniedState =
      { c7DeniedState with
        throttledRequests := c7DeniedState.throttledRequests + 1
        events := c7DeniedState.events ++
          [.throttled "eth_call"
            (canProceed c7DeniedState.secondlyCredits
              c7DeniedState.dailyCredits "eth_call").reason] } :=
  c7_denied_head_frame c7DeniedState
    { id := 9, method := "eth_call", script := [.ok 1], retries := 0,
      maxRetries := 3 } [] rfl (by decide)

/-!
Reachable-state model of the limiter for the invariant and temporal claims.
Transitions are the drain loop's admitted execution (`trackUsage` plus the
execution itself) and throttle branch, the passage of time, the per-second
reset timer of `setupResetTimers` (which fires at whole multiples of
1000 ms), the daily reset (on a calendar-date change, not modelled further),
and the monitoring tick of `startMonitoring`. Submissions only append to the
queue, which the credit accountant never reads, so the state keeps the
counters, the clock, and the observable history: `windowLog` holds the costs
charged since the last per-second reset, `dayLog` those since the last daily
reset, `execLog` every `(instant, cost)` execution record, and `warnings`
counts the emitted `daily_limit` warning events.
-/

/-- Credit-accountant state together with the clock and the history. -/
structure RL where
  secondlyCredits : Nat
  dailyCredits : Nat
  dailyCreditsUsed : Nat
  totalRequests : Nat
  throttledRequests : Nat
  now : Nat
  lastResetSecond : Nat
  windowLog : List Nat
  dayLog : List Nat
  execLog : List (Nat × Nat)
  warnings : Nat
deriving DecidableEq

/-- Effect of one admitted execution of `method` at the current instant:
exactly `trackUsage`, recorded in the three history logs. -/
def applyExec (s : RL) (method : String) : RL :=
  { s with
    secondlyCredits := s.secondlyCredits + getCreditsForMethod method
    dailyCredits := s.dailyCredits + getCreditsForMethod method
    dailyCreditsUsed := s.dailyCreditsUsed + getCreditsForMethod method
    totalRequests := s.totalRequests + 1
    windowLog := getCreditsForMethod method :: s.windowLog
    dayLog := getCreditsForMethod method :: s.dayLog
    execLog := (s.now, getCreditsForMethod method) :: s.execLog }

/-- Effect of the drain loop's denial branch on the accountant state. -/
def applyThrottle (s : RL) : RL :=
  { s with throttledRequests := s.throttledRequests + 1 }

/-- Passage of `d` milliseconds. -/
def applyAdvance (s : RL) (d : Nat) : RL :=
  { s with now := s.now + d }

/-- The per-second reset interval handler: `secondlyCredits = 0`,
`lastResetSecond = Date.now()`. -/
def applyResetSecond (s : RL) : RL :=
  { s with secondlyCredits := 0, lastResetSecond := s.now, windowLog := [] }

/-- The daily reset on an observed calendar-date change: `dailyCredits = 0`,
`stats.dailyCreditsUsed = 0`. -/
def applyResetDay (s : RL) : RL :=
  { s with dailyCredits := 0, dailyCreditsUsed := 0, dayLog := [] }

/-- One tick of `startMonitoring`: warn exactly when
`currentDayCredits > MAX_CREDITS_PER_DAY * 0.8`; the right-hand side is
exactly `2400000` in double arithmetic, so the comparison is embedded as
`10 * dailyCredits > 8 * MAX_CREDITS_PER_DAY`. -/
def monitorTick (s : RL) : RL :=
  if 10 * s.dailyCredits > 8 * MAX_CREDITS_PER_DAY then
    { s with warnings := s.warnings + 1 }
  else
    s

/-- Constructor state: zero counters, clock at the start instant. -/
def rlInit : RL :=
  { secondlyCredits := 0, dailyCredits := 0, dailyCreditsUsed := 0,
    totalRequests := 0, throttledRequests := 0, now := 0,
    lastResetSecond := 0, windowLog := [], dayLog := [], execLog := [],
    warnings := 0 }

/-- One transition of the limiter. An execution is admitted only on a
positive `canProceed` answer, as in the drain loop; the per-second timer
fires at whole multiples of 1000 ms. -/
inductive RLStep : RL → RL → Prop where
  | execute (s : RL) (method : String)
      (h : (canProceed s.secondlyCredits s.dailyCredits method).allowed
        = true) :
      RLStep s (applyExec s method)
  | throttle (s : RL) (method : String)
      (h : (canProceed s.secondlyCredits s.dailyCredits method).allowed
        = false) :
      RLStep s (applyThrottle s)
  | advance (s : RL) (d : Nat) : RLStep s (applyAdvance s d)
  | resetSecond (s : RL) (h : s.now % 1000 = 0) :
      RLStep s (applyResetSecond s)
  | resetDay (s : RL) : RLStep s (applyResetDay s)
  | monitor (s : RL) : RLStep s (monitorTick s)

/-- States of the limiter reachable from the constructor state. -/
inductive Reachable : RL → Prop where
  | init : Reachable rlInit
  | step {s t : RL} : Reachable s → RLStep s t → Reachable t

/-- Inductive invariant: each counter equals the sum of the costs charged in
its current window, and neither counter ever exceeds its admission ceiling. -/
theorem reachable_inv {s : RL} (h : Reachable s) :
    s.windowLog.sum = s.secondlyCredits ∧ s.dayLog.sum = s.dailyCredits ∧
      s.secondlyCredits ≤ SAFE_CREDITS_PER_SECOND ∧
      s.dailyCredits ≤ MAX_CREDITS_PER_DAY := by
  induction h with
  | init => simp [rlInit]
  | step hr hstep ih =>
    obtain ⟨ihw, ihd, ihs, ihdc⟩ := ih
    cases hstep with
    | execute m hall =>
      obtain ⟨hdle, hsle⟩ := (canProceed_allowed_iff _ _ m).mp hall
      simp only [applyExec, List.sum_cons]
      refine ⟨by omega, by omega, by omega, by omega⟩
    | throttle m hden =>
      simpa [applyThrottle] using ⟨ihw, ihd, ihs, ihdc⟩
    | advance d =>
      simpa [applyAdvance] using ⟨ihw, ihd, ihs, ihdc⟩
    | resetSecond hnow =>
      simp [applyResetSecond]
      exact ⟨ihd, ihdc⟩
    | resetDay =>
      simp [applyResetDay]
      exact ⟨ihw, ihs⟩
    | monitor =>
      unfold monitorTick
      split
      · simpa using ⟨ihw, ihd, ihs, ihdc⟩
      · exact ⟨ihw, ihd, ihs, ihdc⟩

/-- Claim C1: in every reachable state of the limiter — after any sequence
of submissions, admissions, executions, retries, throttles and timer resets
— the per-second counter stays at most `SAFE_CREDITS_PER_SECOND = 400` and
the daily counter at most `MAX_CREDITS_PER_DAY = 3000000`; both counters
live in `Nat`, so they are also never negative: the drain loop never admits
an operation whose cost, once recorded by `trackUsage`, would push either
counter above its ceiling. -/
theorem c1_counter_invariant (s : RL) (h : Reachable s) :
    s.secondlyCredits ≤ SAFE_CREDITS_PER_SECOND ∧
      s.dailyCredits ≤ MAX_CREDITS_PER_DAY :=
  ⟨(reachable_inv h).2.2.1, (reachable_inv h).2.2.2⟩

/-- Witness for `c1_counter_invariant` at the constructor state. -/
theorem c1_counter_invariant_witness :
    rlInit.secondlyCredits ≤ SAFE_CREDITS_PER_SECOND ∧
      rlInit.dailyCredits ≤ MAX_CREDITS_PER_DAY :=
  c1_counter_invariant rlInit Reachable.init

/-- Cost of `eth_sendRawTransaction` in the table. -/
theorem cost_sendRaw : getCreditsForMethod "eth_sendRawTransaction" = 20 := by
  decide

/-- Sum of the costs of the executions recorded in `log` that fall in the
rolling one-second window `(t, t + 1000]`. -/
def windowCost (log : List (Nat × Nat)) (t : Nat) : Nat :=
  ((log.filter fun e => decide (t < e.1) && decide (e.1 ≤ t + 1000)).map
    Prod.snd).sum

/-- Burst of `n` back-to-back admitted `eth_sendRawTransaction` executions
at the current instant (the drain loop runs them consecutively within one
millisecond when every executable resolves at once). -/
def burst (s : RL) : Nat → RL
  | 0 => s
  | n + 1 => applyExec (burst s n) "eth_sendRawTransaction"

theorem burst_secondly (s : RL) (n : Nat) :
    (burst s n).secondlyCredits = s.secondlyCredits + 20 * n := by
  induction n with
  | zero => simp [burst]
  | succ n ih => simp [burst, applyExec, ih, cost_sendRaw]; omega

theorem burst_daily (s : RL) (n : Nat) :
    (burst s n).dailyCredits = s.dailyCredits + 20 * n := by
  induction n with
  | zero => simp [burst]
  | succ n ih => simp [burst, applyExec, ih, cost_sendRaw]; omega

theorem burst_now (s : RL) (n : Nat) : (burst s n).now = s.now := by
  induction n with
  | zero => simp [burst]
  | succ n ih => simp [burst, applyExec, ih]

theorem burst_execLog (s : RL) (n : Nat) :
    (burst s n).execLog = List.replicate n (s.now, 20) ++ s.execLog := by
  induction n with
  | zero => simp [burst]
  | succ n ih =>
    simp [burst, applyExec, ih, cost_sendRaw, burst_now, List.replicate_succ]

/-- A burst stays reachable while both budgets can absorb it. -/
theorem burst_reachable (s : RL) (h : Reachable s) :
    ∀ n, s.secondlyCredits + 20 * n ≤ SAFE_CREDITS_PER_SECOND →
      s.dailyCredits + 20 * n ≤ MAX_CREDITS_PER_DAY →
      Reachable (burst s n) := by
  intro n
  induction n with
  | zero => intro _ _; exact h
  | succ n ih =>
    intro hsec hday
    have hall : (canProceed (burst s n).secondlyCredits
        (burst s n).dailyCredits "eth_sendRawTransaction").allowed = true := by
      apply canProceed_allowed_of
      · rw [burst_daily, cost_sendRaw]; omega
      · rw [burst_secondly, cost_sendRaw]; omega
    exact Reachable.step (ih (by omega) (by omega))
      (RLStep.execute _ _ hall)

/-- Run refuting the rolling-window reading of claim C3: 20 executions of
cost 20 at instant 999, the per-second reset at instant 1000, and 20 more
executions of cost 20 at instant 1001 — 800 credits inside the one-second
window `(1, 1001]`. -/
def c3Cex : RL :=
  burst (applyAdvance
    (applyResetSecond (applyAdvance (burst (applyAdvance rlInit 999) 20) 1))
    1) 20

/-- Claim C3 as stated is false: `c3Cex` is reachable — every step is one
the deployed loop and timers perform — yet the executions recorded in its
log put 800 > 400 credits inside the rolling one-second window `(1, 1001]`.
The per-second budget bounds each fixed timer window, not every rolling
window: a burst just before a reset and a burst just after it share a
rolling window. -/
theorem c3_counterexample :
    Reachable c3Cex ∧ windowCost c3Cex.execLog 1 = 800 ∧
      ¬(∀ s : RL, Reachable s → ∀ t : Nat,
          windowCost s.execLog t ≤ SAFE_CREDITS_PER_SECOND) := by
  have h0 : Reachable (applyAdvance rlInit 999) :=
    Reachable.step Reachable.init (RLStep.advance rlInit 999)
  have h1 : Reachable (burst (applyAdvance rlInit 999) 20) :=
    burst_reachable _ h0 20 (by decide) (by decide)
  have h2 : Reachable (applyAdvance (burst (applyAdvance rlInit 999) 20) 1)
    := Reachable.step h1 (RLStep.advance _ 1)
  have h3 : Reachable
      (applyResetSecond (applyAdvance (burst (applyAdvance rlInit 999) 20) 1))
    := Reachable.step h2 (RLStep.resetSecond _ (by decide))
  have h4 : Reachable (applyAdvance
      (applyResetSecond (applyAdvance (burst (applyAdvance rlInit 999) 20) 1))
      1) := Reachable.step h3 (RLStep.advance _ 1)
  have hreach : Reachable c3Cex :=
    burst_reachable _ h4 20 (by decide) (by decide)
  have hwc : windowCost c3Cex.execLog 1 = 800 := by decide
  refine ⟨hreach, hwc, fun hall => ?_⟩
  have hle := hall c3Cex hreach 1
  rw [hwc] at hle
  exact absurd hle (by decide)

/-- Claim C3 (amended to the fixed windows the code maintains): in every
reachable state, the total cost of the operations executed since the last
per-second reset is at most `SAFE_CREDITS_PER_SECOND = 400`, and the total
cost of those executed since the last daily reset is at most
`MAX_CREDITS_PER_DAY = 3000000`. -/
theorem c3_fixed_window_bounds (s : RL) (h : Reachable s) :
    s.windowLog.sum ≤ SAFE_CREDITS_PER_SECOND ∧
      s.dayLog.sum ≤ MAX_CREDITS_PER_DAY := by
  obtain ⟨hw, hd, h1, h2⟩ := reachable_inv h
  omega

/-- Witness for `c3_fixed_window_bounds` at the constructor state. -/
theorem c3_fixed_window_bounds_witness :
    rlInit.windowLog.sum ≤ SAFE_CREDITS_PER_SECOND ∧
      rlInit.dayLog.sum ≤ MAX_CREDITS_PER_DAY :=
  c3_fixed_window_bounds rlInit Reachable.init

/-- One second of steady traffic: a single admitted `eth_sendRawTransaction`
execution, 1000 ms, then the per-second reset. -/
def roundStep (s : RL) : RL :=
  applyResetSecond (applyAdvance (applyExec s "eth_sendRawTransaction") 1000)

/-- The state after `k` seconds of steady traffic, 20 credits per second. -/
def rounds : Nat → RL
  | 0 => rlInit
  | k + 1 => roundStep (rounds k)

theorem rounds_secondly (k : Nat) : (rounds k).secondlyCredits = 0 := by
  cases k with
  | zero => simp [rounds, rlInit]
  | succ k => simp [rounds, roundStep, applyResetSecond]

theorem rounds_daily (k : Nat) : (rounds k).dailyCredits = 20 * k := by
  induction k with
  | zero => simp [rounds, rlInit]
  | succ k ih =>
    simp [rounds, roundStep, applyResetSecond, applyAdvance, applyExec, ih,
      cost_sendRaw]
    omega

theorem rounds_now (k : Nat) : (rounds k).now = 1000 * k := by
  induction k with
  | zero => simp [rounds, rlInit]
  | succ k ih =>
    simp [rounds, roundStep, applyResetSecond, applyAdvance, applyExec, ih]
    omega

theorem rounds_warnings (k : Nat) : (rounds k).warnings = 0 := by
  induction k with
  | zero => simp [rounds, rlInit]
  | succ k ih =>
    simp [rounds, roundStep, applyResetSecond, applyAdvance, applyExec, ih]

/-- Steady traffic is reachable for up to 150000 seconds, when the daily
budget is exactly exhausted. -/
theorem rounds_reachable : ∀ k, k ≤ 150000 → Reachable (rounds k) := by
  intro k
  induction k with
  | zero => intro _; exact Reachable.init
  | succ k ih =>
    intro hk
    have hall : (canProceed (rounds k).secondlyCredits
        (rounds k).dailyCredits "eth_sendRawTransaction").allowed = true := by
      apply canProceed_allowed_of
      · rw [rounds_daily, cost_sendRaw]
        unfold MAX_CREDITS_PER_DAY
        omega
      · rw [rounds_secondly, cost_sendRaw]
        unfold SAFE_CREDITS_PER_SECOND
        omega
    have h1 : Reachable (applyExec (rounds k) "eth_sendRawTransaction") :=
      Reachable.step (ih (by omega)) (RLStep.execute _ _ hall)
    have h2 : Reachable
        (applyAdvance (applyExec (rounds k) "eth_sendRawTransaction") 1000) :=
      Reachable.step h1 (RLStep.advance _ 1000)
    have hnow : (applyAdvance (applyExec (rounds k) "eth_sendRawTransaction")
        1000).now % 1000 = 0 := by
      simp [applyAdvance, applyExec, rounds_now]
    exact Reachable.step h2 (RLStep.resetSecond _ hnow)

/-- Daily counter after one admitted execution, as a definitional identity
(kept generic so concrete instances need no evaluation). -/
theorem applyExec_daily (s : RL) (m : String) :
    (applyExec s m).dailyCredits = s.dailyCredits + getCreditsForMethod m :=
  rfl

/-- An admitted execution emits no warning event. -/
theorem applyExec_warnings (s : RL) (m : String) :
    (applyExec s m).warnings = s.warnings :=
  rfl

/-- Claim C9 as stated is false: after 120000 seconds of steady traffic the
daily counter sits exactly at the 80 percent threshold, the next admitted
execution crosses it, and no warning has been emitted at that crossing (nor
earlier in the run) — `startMonitoring` only emits at its own later polls. -/
theorem c9_counterexample :
    Reachable (rounds 120000) ∧
      RLStep (rounds 120000)
        (applyExec (rounds 120000) "eth_sendRawTransaction") ∧
      10 * (rounds 120000).dailyCredits ≤ 8 * MAX_CREDITS_PER_DAY ∧
      10 * (applyExec (rounds 120000) "eth_sendRawTransaction").dailyCredits
        > 8 * MAX_CREDITS_PER_DAY ∧
      (applyExec (rounds 120000) "eth_sendRawTransaction").warnings = 0 ∧
      ¬(∀ s t : RL, Reachable s → RLStep s t →
          10 * s.dailyCredits ≤ 8 * MAX_CREDITS_PER_DAY →
          10 * t.dailyCredits > 8 * MAX_CREDITS_PER_DAY →
          t.warnings = s.warnings + 1) := by
  have hall : (canProceed (rounds 120000).secondlyCredits
      (rounds 120000).dailyCredits "eth_sendRawTransaction").allowed
      = true := by
    apply canProceed_allowed_of
    · rw [rounds_daily, cost_sendRaw]
      unfold MAX_CREDITS_PER_DAY
      omega
    · rw [rounds_secondly, cost_sendRaw]
      unfold SAFE_CREDITS_PER_SECOND
      omega
  have hreach : Reachable (rounds 120000) := rounds_reachable 120000 (by omega)
  have hstep : RLStep (rounds 120000)
      (applyExec (rounds 120000) "eth_sendRawTransaction") :=
    RLStep.execute _ _ hall
  have hbelow : 10 * (rounds 120000).dailyCredits ≤ 8 * MAX_CREDITS_PER_DAY
    := by
    rw [rounds_daily]
    unfold MAX_CREDITS_PER_DAY
    omega
  have habove :
      10 * (applyExec (rounds 120000) "eth_sendRawTransaction").dailyCredits
        > 8 * MAX_CREDITS_PER_DAY := by
    rw [applyExec_daily, rounds_daily, cost_sendRaw]
    unfold MAX_CREDITS_PER_DAY
    omega
  have hwarn :
      (applyExec (rounds 120000) "eth_sendRawTransaction").warnings = 0 := by
    rw [applyExec_warnings, rounds_warnings]
  refine ⟨hreach, hstep, hbelow, habove, hwarn, fun hclaim => ?_⟩
  have hcontra := hclaim (rounds 120000)
    (applyExec (rounds 120000) "eth_sendRawTransaction") hreach hstep hbelow
    habove
  rw [hwarn, rounds_warnings] at hcontra
  exact absurd hcontra (by omega)

/-- Claim C9 (amended to the polling the code performs): a monitoring tick
emits the `daily_limit` warning exactly when it observes `dayCredits` above
80 percent of `MAX_CREDITS_PER_DAY`, and it changes neither counter; so the
warning recurs at every poll above the threshold — the first one shortly
after the crossing — rather than firing at the crossing itself. -/
theorem c9_monitor_poll_warning (s : RL) :
    ((monitorTick s).warnings = s.warnings + 1 ↔
        10 * s.dailyCredits > 8 * MAX_CREDITS_PER_DAY) ∧
      (monitorTick s).dailyCredits = s.dailyCredits ∧
      (monitorTick s).secondlyCredits = s.secondlyCredits := by
  unfold monitorTick
  split
  · rename_i h
    exact ⟨by simpa using h, rfl, rfl⟩
  · rename_i h
    refine ⟨?_, rfl, rfl⟩
    constructor
    · intro habs
      omega
    · intro habs
      exact absurd habs h
